import Mathlib

/-!
Verification of the request-encoding layer of the audaces-perps program
(`src/program/src/instruction.rs`): the `PerpInstruction` operation schema
with its canonical binary payload encoding, and the per-operation request
assembler functions that build the ordered account-reference lists.

Account identities (`Pubkey`, 32-byte opaque identifiers in the source) are
modelled as natural numbers; the well-known constant identities
(the spl-token program id, the clock sysvar id, and the four label accounts
parsed from string constants of the processor module) are modelled as
distinct opaque constants.  Rust panics (out-of-bounds indexing via
`ctx.instances[i]`, and `try_to_vec().unwrap()`) are modelled by returning
`none`.
-/

namespace Audaces

/-- Account identity: a 32-byte public key in the source, modelled as an
opaque natural number. -/
abbrev Pubkey := Nat

/-- Modelled from the spec: the spl-token program identity
(`spl_token::id()` in the source, an external crate constant); a fixed,
well-known identity distinct from all other constants. -/
def spl_token_id : Pubkey := 1

/-- Modelled from the spec: the clock sysvar identity (`clock::id()` in the
source, an external crate constant). -/
def clock_id : Pubkey := 2

/-- Modelled from the spec: the trade-fee label account, parsed from the
constant `TRADE_LABEL` of the processor module (not under `src/`). -/
def trade_label_key : Pubkey := 3

/-- Modelled from the spec: the liquidation label account, parsed from the
constant `LIQUIDATION_LABEL` of the processor module (not under `src/`). -/
def liquidation_label_key : Pubkey := 4

/-- Modelled from the spec: the funding label account, parsed from the
constant `FUNDING_LABEL` of the processor module (not under `src/`). -/
def funding_label_key : Pubkey := 5

/-- Modelled from the spec: the funding-extraction label account, parsed
from the constant `FUNDING_EXTRACTION_LABEL` of the processor module (not
under `src/`). -/
def funding_extraction_label_key : Pubkey := 6

/-- Modelled from the spec: `PositionType` lives in `state.rs`, which is not
under `src/`; the spec describes it as the long/short side flag, encoded as
a single-byte enumerated value. -/
inductive PositionType where
  | Short
  | Long
deriving DecidableEq, Repr

/-- Modelled from the spec: the single-byte encoding of the side flag, by
declaration order of the enumerated variants. -/
def sideByte : PositionType → Nat
  | .Short => 0
  | .Long => 1

/-- The operation schema: the 18 operation kinds of `PerpInstruction`
(`instruction.rs` lines 20-263), in declaration order, each with its fixed
tuple of typed arguments.  `u8`/`u16`/`u64` fields become `Nat`; the
`market_symbol: String` field becomes its byte sequence. -/
inductive PerpInstruction where
  | CreateMarket (signer_nonce : Nat) (market_symbol : List Nat)
      (initial_v_pc_amount : Nat) (coin_decimals : Nat) (quote_decimals : Nat)
  | AddInstance
  | UpdateOracleAccount
  | OpenPosition (side : PositionType) (collateral : Nat) (instance_index : Nat)
      (leverage : Nat) (predicted_entry_price : Nat) (maximum_slippage_margin : Nat)
  | AddBudget (amount : Nat)
  | WithdrawBudget (amount : Nat)
  | IncreasePosition (add_collateral : Nat) (instance_index : Nat) (leverage : Nat)
      (position_index : Nat) (predicted_entry_price : Nat) (maximum_slippage_margin : Nat)
  | ClosePosition (position_index : Nat) (closing_collateral : Nat) (closing_v_coin : Nat)
      (predicted_entry_price : Nat) (maximum_slippage_margin : Nat)
  | CollectGarbage (instance_index : Nat) (max_iterations : Nat)
  | CrankLiquidation (instance_index : Nat)
  | CrankFunding
  | FundingExtraction (instance_index : Nat)
  | ChangeK (factor : Nat)
  | CloseAccount
  | AddPage (instance_index : Nat)
  | Rebalance (collateral : Nat) (instance_index : Nat)
  | TransferUserAccount
  | TransferPosition (position_index : Nat)
deriving DecidableEq, Repr

/-- Little-endian fixed-width byte encoding: `toLE w x` is the `w`-byte
little-endian encoding of `x` (truncated modulo `256 ^ w`, which never
happens for values representable in the source's integer types). -/
def toLE : Nat → Nat → List Nat
  | 0, _ => []
  | w + 1, x => x % 256 :: toLE w (x / 256)

/-- Modelled from the spec: the length-prefixed string encoding (a 4-byte
little-endian length prefix followed by the raw bytes); fails when the
length is not representable in the prefix. -/
def serString (s : List Nat) : Option (List Nat) :=
  if s.length < 2 ^ 32 then some (toLE 4 s.length ++ s) else none

/-- Modelled from the spec: the canonical binary payload encoding produced
by `try_to_vec()` (the derived borsh serializer, an external crate): one
discriminant byte assigned by declaration order, then each argument field
in declared order in fixed-width little-endian encoding, strings
length-prefixed, the side flag a single byte.  Failure (`none`) models the
`EncodingError` case (string too long). -/
def encode : PerpInstruction → Option (List Nat)
  | .CreateMarket n s a cd qd => do
      let sb ← serString s
      pure (0 :: toLE 1 n ++ sb ++ toLE 8 a ++ toLE 1 cd ++ toLE 1 qd)
  | .AddInstance => some [1]
  | .UpdateOracleAccount => some [2]
  | .OpenPosition side c i l p m =>
      some (3 :: sideByte side :: toLE 8 c ++ toLE 1 i ++ toLE 8 l ++ toLE 8 p ++ toLE 8 m)
  | .AddBudget a => some (4 :: toLE 8 a)
  | .WithdrawBudget a => some (5 :: toLE 8 a)
  | .IncreasePosition ac i l pi p m =>
      some (6 :: toLE 8 ac ++ toLE 1 i ++ toLE 8 l ++ toLE 2 pi ++ toLE 8 p ++ toLE 8 m)
  | .ClosePosition pi cc cv p m =>
      some (7 :: toLE 2 pi ++ toLE 8 cc ++ toLE 8 cv ++ toLE 8 p ++ toLE 8 m)
  | .CollectGarbage i mi => some (8 :: toLE 1 i ++ toLE 8 mi)
  | .CrankLiquidation i => some (9 :: toLE 1 i)
  | .CrankFunding => some [10]
  | .FundingExtraction i => some (11 :: toLE 1 i)
  | .ChangeK f => some (12 :: toLE 8 f)
  | .CloseAccount => some [13]
  | .AddPage i => some (14 :: toLE 1 i)
  | .Rebalance c i => some (15 :: toLE 8 c ++ toLE 1 i)
  | .TransferUserAccount => some [16]
  | .TransferPosition pi => some (17 :: toLE 2 pi)

/-- Reads a `w`-byte little-endian value, returning it with the remaining
bytes. -/
def readLE : Nat → List Nat → Option (Nat × List Nat)
  | 0, l => some (0, l)
  | _ + 1, [] => none
  | w + 1, b :: r => (readLE w r).map (fun vr => (b + 256 * vr.1, vr.2))

/-- Reads `n` raw bytes, returning them with the remaining bytes. -/
def readBytes (n : Nat) (l : List Nat) : Option (List Nat × List Nat) :=
  if n ≤ l.length then some (l.take n, l.drop n) else none

/-- Reads a single-byte side flag. -/
def readSide : List Nat → Option (PositionType × List Nat)
  | 0 :: r => some (.Short, r)
  | 1 :: r => some (.Long, r)
  | _ => none

/-- Companion decoder for the binary payload schema (the inverse the
execution engine is assumed to implement): reads the discriminant byte,
then the argument fields, and rejects trailing bytes. -/
def decode : List Nat → Option PerpInstruction
  | 0 :: r => do
      let (n, r) ← readLE 1 r
      let (len, r) ← readLE 4 r
      let (s, r) ← readBytes len r
      let (a, r) ← readLE 8 r
      let (cd, r) ← readLE 1 r
      let (qd, r) ← readLE 1 r
      if r = [] then some (.CreateMarket n s a cd qd) else none
  | 1 :: r => if r = [] then some .AddInstance else none
  | 2 :: r => if r = [] then some .UpdateOracleAccount else none
  | 3 :: r => do
      let (side, r) ← readSide r
      let (c, r) ← readLE 8 r
      let (i, r) ← readLE 1 r
      let (l, r) ← readLE 8 r
      let (p, r) ← readLE 8 r
      let (m, r) ← readLE 8 r
      if r = [] then some (.OpenPosition side c i l p m) else none
  | 4 :: r => do
      let (a, r) ← readLE 8 r
      if r = [] then some (.AddBudget a) else none
  | 5 :: r => do
      let (a, r) ← readLE 8 r
      if r = [] then some (.WithdrawBudget a) else none
  | 6 :: r => do
      let (ac, r) ← readLE 8 r
      let (i, r) ← readLE 1 r
      let (l, r) ← readLE 8 r
      let (pi, r) ← readLE 2 r
      let (p, r) ← readLE 8 r
      let (m, r) ← readLE 8 r
      if r = [] then some (.IncreasePosition ac i l pi p m) else none
  | 7 :: r => do
      let (pi, r) ← readLE 2 r
      let (cc, r) ← readLE 8 r
      let (cv, r) ← readLE 8 r
      let (p, r) ← readLE 8 r
      let (m, r) ← readLE 8 r
      if r = [] then some (.ClosePosition pi cc cv p m) else none
  | 8 :: r => do
      let (i, r) ← readLE 1 r
      let (mi, r) ← readLE 8 r
      if r = [] then some (.CollectGarbage i mi) else none
  | 9 :: r => do
      let (i, r) ← readLE 1 r
      if r = [] then some (.CrankLiquidation i) else none
  | 10 :: r => if r = [] then some .CrankFunding else none
  | 11 :: r => do
      let (i, r) ← readLE 1 r
      if r = [] then some (.FundingExtraction i) else none
  | 12 :: r => do
      let (f, r) ← readLE 8 r
      if r = [] then some (.ChangeK f) else none
  | 13 :: r => if r = [] then some .CloseAccount else none
  | 14 :: r => do
      let (i, r) ← readLE 1 r
      if r = [] then some (.AddPage i) else none
  | 15 :: r => do
      let (c, r) ← readLE 8 r
      let (i, r) ← readLE 1 r
      if r = [] then some (.Rebalance c i) else none
  | 16 :: r => if r = [] then some .TransferUserAccount else none
  | 17 :: r => do
      let (pi, r) ← readLE 2 r
      if r = [] then some (.TransferPosition pi) else none
  | _ => none

/-- Well-formedness of an operation value: every argument is representable
in its declared Rust integer type (guaranteed by the types in the source,
where fields are `u8` / `u16` / `u64` and strings are byte sequences with
byte values below 256). -/
def wf : PerpInstruction → Prop
  | .CreateMarket n s a cd qd =>
      n < 2 ^ 8 ∧ s.length < 2 ^ 32 ∧ (∀ b ∈ s, b < 256) ∧ a < 2 ^ 64 ∧ cd < 2 ^ 8 ∧ qd < 2 ^ 8
  | .AddInstance => True
  | .UpdateOracleAccount => True
  | .OpenPosition _ c i l p m =>
      c < 2 ^ 64 ∧ i < 2 ^ 8 ∧ l < 2 ^ 64 ∧ p < 2 ^ 64 ∧ m < 2 ^ 64
  | .AddBudget a => a < 2 ^ 64
  | .WithdrawBudget a => a < 2 ^ 64
  | .IncreasePosition ac i l pi p m =>
      ac < 2 ^ 64 ∧ i < 2 ^ 8 ∧ l < 2 ^ 64 ∧ pi < 2 ^ 16 ∧ p < 2 ^ 64 ∧ m < 2 ^ 64
  | .ClosePosition pi cc cv p m =>
      pi < 2 ^ 16 ∧ cc < 2 ^ 64 ∧ cv < 2 ^ 64 ∧ p < 2 ^ 64 ∧ m < 2 ^ 64
  | .CollectGarbage i mi => i < 2 ^ 8 ∧ mi < 2 ^ 64
  | .CrankLiquidation i => i < 2 ^ 8
  | .CrankFunding => True
  | .FundingExtraction i => i < 2 ^ 8
  | .ChangeK f => f < 2 ^ 64
  | .CloseAccount => True
  | .AddPage i => i < 2 ^ 8
  | .Rebalance c i => c < 2 ^ 64 ∧ i < 2 ^ 8
  | .TransferUserAccount => True
  | .TransferPosition pi => pi < 2 ^ 16

instance : DecidablePred wf := fun v => by
  cases v <;> (unfold wf; infer_instance)

/-- An account reference of a built request (`solana_program`
`AccountMeta`): identity plus signer and writable flags. -/
structure AccountMeta where
  pubkey : Pubkey
  is_signer : Bool
  is_writable : Bool
deriving DecidableEq, Repr

/-- `AccountMeta::new`: a writable account reference. -/
def AccountMeta.new (pk : Pubkey) (s : Bool) : AccountMeta :=
  ⟨pk, s, true⟩

/-- `AccountMeta::new_readonly`: a read-only account reference. -/
def AccountMeta.new_readonly (pk : Pubkey) (s : Bool) : AccountMeta :=
  ⟨pk, s, false⟩

/-- The built request (`solana_program` `Instruction`): target program,
ordered account references, encoded payload. -/
structure Instruction where
  program_id : Pubkey
  accounts : List AccountMeta
  data : List Nat
deriving DecidableEq, Repr

/-- One trading instance: its account plus the ordered paged-storage
accounts. -/
structure InstanceContext where
  instance_account : Pubkey
  memory_pages : List Pubkey
deriving DecidableEq, Repr

/-- The long-lived market configuration context. -/
structure MarketContext where
  audaces_protocol_program_id : Pubkey
  signer_nonce : Nat
  market_signer_account : Pubkey
  oracle_account : Pubkey
  market_account : Pubkey
  admin_account : Pubkey
  market_vault : Pubkey
  bonfida_bnb : Pubkey
  instances : List InstanceContext
deriving DecidableEq, Repr

/-- The optional fee-discount account pair. -/
structure DiscountAccount where
  owner : Pubkey
  address : Pubkey
deriving DecidableEq, Repr

/-- Identifies a position: user account, its owner, instance index, side. -/
structure PositionInfo where
  user_account : Pubkey
  user_account_owner : Pubkey
  instance_index : Nat
  side : PositionType
deriving DecidableEq, Repr

/-- The paged segment: one writable, non-signer reference per memory page,
in stored order (the `for p in &instance.memory_pages` loops). -/
def pageMetas (ps : List Pubkey) : List AccountMeta :=
  ps.map (fun p => AccountMeta.new p false)

/-- The optional discount segment: address (read-only) then owner
(read-only signer) when present (`if let Some(d) = discount_account_opt`). -/
def discountMetas : Option DiscountAccount → List AccountMeta
  | some d => [AccountMeta.new_readonly d.address false, AccountMeta.new_readonly d.owner true]
  | none => []

/-- The optional referral segment: one writable reference when present
(`if let Some(referrer_account) = referrer_account_opt`). -/
def referrerMetas : Option Pubkey → List AccountMeta
  | some r => [AccountMeta.new r false]
  | none => []

/-- `create_market` (`instruction.rs` lines 299-327). -/
def create_market (ctx : MarketContext) (market_symbol : List Nat)
    (initial_v_pc_amount coin_decimals quote_decimals : Nat) : Option Instruction := do
  let data ← encode (.CreateMarket ctx.signer_nonce market_symbol
      initial_v_pc_amount coin_decimals quote_decimals)
  pure ⟨ctx.audaces_protocol_program_id,
    [AccountMeta.new ctx.market_account false,
     AccountMeta.new_readonly clock_id false,
     AccountMeta.new_readonly ctx.oracle_account false,
     AccountMeta.new_readonly ctx.admin_account false,
     AccountMeta.new_readonly ctx.market_vault false],
    data⟩

/-- `update_oracle_account` (`instruction.rs` lines 329-349). -/
def update_oracle_account (ctx : MarketContext)
    (pyth_oracle_mapping_account pyth_oracle_product_account pyth_oracle_price_account : Pubkey) :
    Option Instruction := do
  let data ← encode .UpdateOracleAccount
  pure ⟨ctx.audaces_protocol_program_id,
    [AccountMeta.new ctx.market_account false,
     AccountMeta.new_readonly pyth_oracle_mapping_account false,
     AccountMeta.new_readonly pyth_oracle_product_account false,
     AccountMeta.new_readonly pyth_oracle_price_account false],
    data⟩

/-- `add_instance` (`instruction.rs` lines 351-371). -/
def add_instance (ctx : MarketContext) (instance_account : Pubkey)
    (memory_pages : List Pubkey) : Option Instruction := do
  let data ← encode .AddInstance
  pure ⟨ctx.audaces_protocol_program_id,
    [AccountMeta.new ctx.market_account false,
     AccountMeta.new ctx.admin_account true,
     AccountMeta.new instance_account false]
    ++ pageMetas memory_pages,
    data⟩

/-- `add_budget` (`instruction.rs` lines 373-396). -/
def add_budget (ctx : MarketContext) (amount : Nat)
    (source_owner source_token_account open_positions_account : Pubkey) :
    Option Instruction := do
  let data ← encode (.AddBudget amount)
  pure ⟨ctx.audaces_protocol_program_id,
    [AccountMeta.new_readonly spl_token_id false,
     AccountMeta.new ctx.market_account false,
     AccountMeta.new ctx.market_vault false,
     AccountMeta.new open_positions_account false,
     AccountMeta.new_readonly source_owner true,
     AccountMeta.new source_token_account false],
    data⟩

/-- `withdraw_budget` (`instruction.rs` lines 398-422). -/
def withdraw_budget (ctx : MarketContext) (amount : Nat)
    (target_account open_positions_owner_account open_positions_account : Pubkey) :
    Option Instruction := do
  let data ← encode (.WithdrawBudget amount)
  pure ⟨ctx.audaces_protocol_program_id,
    [AccountMeta.new_readonly spl_token_id false,
     AccountMeta.new ctx.market_account false,
     AccountMeta.new_readonly ctx.market_signer_account false,
     AccountMeta.new ctx.market_vault false,
     AccountMeta.new_readonly open_positions_owner_account true,
     AccountMeta.new open_positions_account false,
     AccountMeta.new target_account false],
    data⟩

/-- `open_position` (`instruction.rs` lines 425-479).  The source indexes
`ctx.instances[position.instance_index as usize]`; the out-of-bounds panic
is modelled by `none`. -/
def open_position (ctx : MarketContext) (position : PositionInfo)
    (collateral leverage predicted_entry_price maximum_slippage_margin : Nat)
    (discount_account_opt : Option DiscountAccount)
    (referrer_account_opt : Option Pubkey) : Option Instruction := do
  let inst ← ctx.instances[position.instance_index]?
  let data ← encode (.OpenPosition position.side collateral position.instance_index
      leverage predicted_entry_price maximum_slippage_margin)
  pure ⟨ctx.audaces_protocol_program_id,
    [AccountMeta.new_readonly spl_token_id false,
     AccountMeta.new_readonly clock_id false,
     AccountMeta.new ctx.market_account false,
     AccountMeta.new inst.instance_account false,
     AccountMeta.new_readonly ctx.market_signer_account false,
     AccountMeta.new ctx.market_vault false,
     AccountMeta.new ctx.bonfida_bnb false,
     AccountMeta.new_readonly position.user_account_owner true,
     AccountMeta.new position.user_account false,
     AccountMeta.new_readonly trade_label_key false,
     AccountMeta.new_readonly ctx.oracle_account false]
    ++ pageMetas inst.memory_pages
    ++ discountMetas discount_account_opt
    ++ referrerMetas referrer_account_opt,
    data⟩

/-- `increase_position` (`instruction.rs` lines 481-539). -/
def increase_position (ctx : MarketContext)
    (add_collateral leverage instance_index position_index : Nat)
    (position_owner open_positions_account : Pubkey)
    (predicted_entry_price maximum_slippage_margin : Nat)
    (discount_account_opt : Option DiscountAccount)
    (referrer_account_opt : Option Pubkey) : Option Instruction := do
  let inst ← ctx.instances[instance_index]?
  let data ← encode (.IncreasePosition add_collateral instance_index leverage
      position_index predicted_entry_price maximum_slippage_margin)
  pure ⟨ctx.audaces_protocol_program_id,
    [AccountMeta.new_readonly spl_token_id false,
     AccountMeta.new_readonly clock_id false,
     AccountMeta.new ctx.market_account false,
     AccountMeta.new_readonly ctx.market_signer_account false,
     AccountMeta.new ctx.market_vault false,
     AccountMeta.new ctx.bonfida_bnb false,
     AccountMeta.new inst.instance_account false,
     AccountMeta.new_readonly position_owner true,
     AccountMeta.new open_positions_account false,
     AccountMeta.new_readonly trade_label_key false,
     AccountMeta.new_readonly ctx.oracle_account false]
    ++ pageMetas inst.memory_pages
    ++ discountMetas discount_account_opt
    ++ referrerMetas referrer_account_opt,
    data⟩

/-- `close_position` (`instruction.rs` lines 541-597). -/
def close_position (ctx : MarketContext) (position_info : PositionInfo)
    (closing_collateral closing_v_coin position_index : Nat)
    (predicted_entry_price maximum_slippage_margin : Nat)
    (discount_account : Option DiscountAccount)
    (referrer_account_opt : Option Pubkey) : Option Instruction := do
  let inst ← ctx.instances[position_info.instance_index]?
  let data ← encode (.ClosePosition position_index closing_collateral closing_v_coin
      predicted_entry_price maximum_slippage_margin)
  pure ⟨ctx.audaces_protocol_program_id,
    [AccountMeta.new_readonly spl_token_id false,
     AccountMeta.new_readonly clock_id false,
     AccountMeta.new ctx.market_account false,
     AccountMeta.new inst.instance_account false,
     AccountMeta.new_readonly ctx.market_signer_account false,
     AccountMeta.new ctx.market_vault false,
     AccountMeta.new ctx.bonfida_bnb false,
     AccountMeta.new_readonly ctx.oracle_account false,
     AccountMeta.new_readonly position_info.user_account_owner true,
     AccountMeta.new position_info.user_account false,
     AccountMeta.new_readonly trade_label_key false]
    ++ pageMetas inst.memory_pages
    ++ discountMetas discount_account
    ++ referrerMetas referrer_account_opt,
    data⟩

/-- `collect_garbage` (`instruction.rs` lines 599-628). -/
def collect_garbage (ctx : MarketContext) (instance_index max_iterations : Nat)
    (target_token_account : Pubkey) : Option Instruction := do
  let inst ← ctx.instances[instance_index]?
  let data ← encode (.CollectGarbage instance_index max_iterations)
  pure ⟨ctx.audaces_protocol_program_id,
    [AccountMeta.new_readonly spl_token_id false,
     AccountMeta.new ctx.market_account false,
     AccountMeta.new inst.instance_account false,
     AccountMeta.new ctx.market_vault false,
     AccountMeta.new_readonly ctx.market_signer_account false,
     AccountMeta.new target_token_account false]
    ++ pageMetas inst.memory_pages,
    data⟩

/-- `crank_liquidation` (`instruction.rs` lines 630-661). -/
def crank_liquidation (ctx : MarketContext) (instance_index : Nat)
    (target_token_account : Pubkey) : Option Instruction := do
  let inst ← ctx.instances[instance_index]?
  let data ← encode (.CrankLiquidation instance_index)
  pure ⟨ctx.audaces_protocol_program_id,
    [AccountMeta.new_readonly spl_token_id false,
     AccountMeta.new ctx.market_account false,
     AccountMeta.new inst.instance_account false,
     AccountMeta.new_readonly ctx.market_signer_account false,
     AccountMeta.new ctx.bonfida_bnb false,
     AccountMeta.new ctx.market_vault false,
     AccountMeta.new_readonly ctx.oracle_account false,
     AccountMeta.new target_token_account false,
     AccountMeta.new_readonly liquidation_label_key false]
    ++ pageMetas inst.memory_pages,
    data⟩

/-- `crank_funding` (`instruction.rs` lines 663-678). -/
def crank_funding (ctx : MarketContext) : Option Instruction := do
  let data ← encode .CrankFunding
  pure ⟨ctx.audaces_protocol_program_id,
    [AccountMeta.new_readonly clock_id false,
     AccountMeta.new ctx.market_account false,
     AccountMeta.new_readonly ctx.oracle_account false,
     AccountMeta.new_readonly funding_label_key false],
    data⟩

/-- `extract_funding` (`instruction.rs` lines 680-705). -/
def extract_funding (ctx : MarketContext) (instance_index : Nat)
    (open_positions_account : Pubkey) : Option Instruction := do
  let inst ← ctx.instances[instance_index]?
  let data ← encode (.FundingExtraction instance_index)
  pure ⟨ctx.audaces_protocol_program_id,
    [AccountMeta.new ctx.market_account false,
     AccountMeta.new inst.instance_account false,
     AccountMeta.new open_positions_account false,
     AccountMeta.new_readonly funding_extraction_label_key false,
     AccountMeta.new_readonly ctx.oracle_account false]
    ++ pageMetas inst.memory_pages,
    data⟩

/-- `change_k` (`instruction.rs` lines 707-718). -/
def change_k (ctx : MarketContext) (factor : Nat) : Option Instruction := do
  let data ← encode (.ChangeK factor)
  pure ⟨ctx.audaces_protocol_program_id,
    [AccountMeta.new ctx.market_account false,
     AccountMeta.new_readonly ctx.admin_account true],
    data⟩

/-- `close_account` (`instruction.rs` lines 720-737). -/
def close_account (ctx : MarketContext)
    (user_account user_account_owner lamports_target : Pubkey) : Option Instruction := do
  let data ← encode .CloseAccount
  pure ⟨ctx.audaces_protocol_program_id,
    [AccountMeta.new user_account false,
     AccountMeta.new_readonly user_account_owner true,
     AccountMeta.new lamports_target false],
    data⟩

/-- `add_page` (`instruction.rs` lines 739-757). -/
def add_page (ctx : MarketContext) (instance_index : Nat)
    (new_memory_page : Pubkey) : Option Instruction := do
  let inst ← ctx.instances[instance_index]?
  let data ← encode (.AddPage instance_index)
  pure ⟨ctx.audaces_protocol_program_id,
    [AccountMeta.new_readonly ctx.market_account false,
     AccountMeta.new_readonly ctx.admin_account true,
     AccountMeta.new inst.instance_account false,
     AccountMeta.new_readonly new_memory_page false],
    data⟩

/-- `rebalance` (`instruction.rs` lines 759-794).  Note: the fixed segment
references `ctx.instances[0].instance_account` while the paged segment
comes from `ctx.instances[instance_index]`, exactly as in the source. -/
def rebalance (ctx : MarketContext) (user_account user_account_owner : Pubkey)
    (instance_index collateral : Nat) : Option Instruction := do
  let inst ← ctx.instances[instance_index]?
  let inst0 ← ctx.instances[0]?
  let data ← encode (.Rebalance collateral instance_index)
  pure ⟨ctx.audaces_protocol_program_id,
    [AccountMeta.new_readonly spl_token_id false,
     AccountMeta.new_readonly clock_id false,
     AccountMeta.new ctx.market_account false,
     AccountMeta.new inst0.instance_account false,
     AccountMeta.new_readonly ctx.market_signer_account false,
     AccountMeta.new ctx.market_vault false,
     AccountMeta.new ctx.bonfida_bnb false,
     AccountMeta.new_readonly user_account_owner true,
     AccountMeta.new user_account false,
     AccountMeta.new_readonly ctx.admin_account true]
    ++ pageMetas inst.memory_pages,
    data⟩

/-- `transfer_user_account` (`instruction.rs` lines 796-816). -/
def transfer_user_account (ctx : MarketContext)
    (user_account user_account_owner new_user_account_owner : Pubkey) :
    Option Instruction := do
  let data ← encode .TransferUserAccount
  pure ⟨ctx.audaces_protocol_program_id,
    [AccountMeta.new_readonly user_account_owner true,
     AccountMeta.new user_account false,
     AccountMeta.new_readonly new_user_account_owner false],
    data⟩

/-- `transfer_position` (`instruction.rs` lines 818-841). -/
def transfer_position (ctx : MarketContext) (position_index : Nat)
    (source_user_account source_user_account_owner : Pubkey)
    (destination_user_account destination_user_account_owner : Pubkey) :
    Option Instruction := do
  let data ← encode (.TransferPosition position_index)
  pure ⟨ctx.audaces_protocol_program_id,
    [AccountMeta.new_readonly source_user_account_owner true,
     AccountMeta.new source_user_account false,
     AccountMeta.new_readonly destination_user_account_owner true,
     AccountMeta.new destination_user_account false],
    data⟩

/-! ### Generic lemmas about the byte-level readers and writers -/

theorem readLE_toLE_append (w x : Nat) (r : List Nat) (h : x < 256 ^ w) :
    readLE w (toLE w x ++ r) = some (x, r) := by
  induction w generalizing x r with
  | zero =>
      have hx : x = 0 := by simpa using h
      simp [toLE, readLE, hx]
  | succ w ih =>
      have hx : x / 256 < 256 ^ w := by
        rw [Nat.div_lt_iff_lt_mul (by norm_num)]
        calc x < 256 ^ (w + 1) := h
          _ = 256 ^ w * 256 := by ring
      have hm : x % 256 + 256 * (x / 256) = x := by omega
      simp [toLE, readLE, ih (x / 256) r hx, hm]

theorem readLE1 (x : Nat) (r : List Nat) (h : x < 2 ^ 8) :
    readLE 1 (toLE 1 x ++ r) = some (x, r) :=
  readLE_toLE_append 1 x r (by norm_num at h ⊢; omega)

theorem readLE2 (x : Nat) (r : List Nat) (h : x < 2 ^ 16) :
    readLE 2 (toLE 2 x ++ r) = some (x, r) :=
  readLE_toLE_append 2 x r (by norm_num at h ⊢; omega)

theorem readLE4 (x : Nat) (r : List Nat) (h : x < 2 ^ 32) :
    readLE 4 (toLE 4 x ++ r) = some (x, r) :=
  readLE_toLE_append 4 x r (by norm_num at h ⊢; omega)

theorem readLE8 (x : Nat) (r : List Nat) (h : x < 2 ^ 64) :
    readLE 8 (toLE 8 x ++ r) = some (x, r) :=
  readLE_toLE_append 8 x r (by norm_num at h ⊢; omega)

theorem readLE1n (x : Nat) (h : x < 2 ^ 8) :
    readLE 1 (toLE 1 x) = some (x, []) := by
  simpa using readLE1 x [] h

theorem readLE2n (x : Nat) (h : x < 2 ^ 16) :
    readLE 2 (toLE 2 x) = some (x, []) := by
  simpa using readLE2 x [] h

theorem readLE8n (x : Nat) (h : x < 2 ^ 64) :
    readLE 8 (toLE 8 x) = some (x, []) := by
  simpa using readLE8 x [] h

theorem readBytes_append (s r : List Nat) :
    readBytes s.length (s ++ r) = some (s, r) := by
  simp [readBytes, List.take_left, List.drop_left]

theorem readSide_sideByte (side : PositionType) (r : List Nat) :
    readSide (sideByte side :: r) = some (side, r) := by
  cases side <;> rfl

set_option maxHeartbeats 1600000 in
/-- Claim C7: decoding the bytes produced by encoding any well-formed
`PerpInstruction` value yields the value again: the companion decoder of
the binary schema inverts the encoder. -/
theorem decode_encode_roundtrip (v : PerpInstruction) (h : wf v) :
    (encode v).bind decode = some v := by
  cases v with
  | CreateMarket n s a cd qd =>
      obtain ⟨h1, h2, h3, h4, h5, h6⟩ := h
      have hs : serString s = some (toLE 4 s.length ++ s) := by
        simp only [serString, if_pos h2]
      simp [encode, hs, decode, List.append_assoc, readLE1 _ _ h1, readLE4 _ _ h2,
        readBytes_append, readLE8 _ _ h4, readLE1 _ _ h5, readLE1n _ h6]
  | AddInstance => rfl
  | UpdateOracleAccount => rfl
  | OpenPosition side c i l p m =>
      obtain ⟨h1, h2, h3, h4, h5⟩ := h
      simp [encode, decode, List.append_assoc, readSide_sideByte, readLE8 _ _ h1,
        readLE1 _ _ h2, readLE8 _ _ h3, readLE8 _ _ h4, readLE8n _ h5]
  | AddBudget a =>
      have h1 : a < 2 ^ 64 := h
      simp [encode, decode, readLE8n _ h1]
  | WithdrawBudget a =>
      have h1 : a < 2 ^ 64 := h
      simp [encode, decode, readLE8n _ h1]
  | IncreasePosition ac i l pi p m =>
      obtain ⟨h1, h2, h3, h4, h5, h6⟩ := h
      simp [encode, decode, List.append_assoc, readLE8 _ _ h1, readLE1 _ _ h2,
        readLE8 _ _ h3, readLE2 _ _ h4, readLE8 _ _ h5, readLE8n _ h6]
  | ClosePosition pi cc cv p m =>
      obtain ⟨h1, h2, h3, h4, h5⟩ := h
      simp [encode, decode, List.append_assoc, readLE2 _ _ h1, readLE8 _ _ h2,
        readLE8 _ _ h3, readLE8 _ _ h4, readLE8n _ h5]
  | CollectGarbage i mi =>
      obtain ⟨h1, h2⟩ := h
      simp [encode, decode, List.append_assoc, readLE1 _ _ h1, readLE8n _ h2]
  | CrankLiquidation i =>
      have h1 : i < 2 ^ 8 := h
      simp [encode, decode, readLE1n _ h1]
  | CrankFunding => rfl
  | FundingExtraction i =>
      have h1 : i < 2 ^ 8 := h
      simp [encode, decode, readLE1n _ h1]
  | ChangeK f =>
      have h1 : f < 2 ^ 64 := h
      simp [encode, decode, readLE8n _ h1]
  | CloseAccount => rfl
  | AddPage i =>
      have h1 : i < 2 ^ 8 := h
      simp [encode, decode, readLE1n _ h1]
  | Rebalance c i =>
      obtain ⟨h1, h2⟩ := h
      simp [encode, decode, List.append_assoc, readLE8 _ _ h1, readLE1n _ h2]
  | TransferUserAccount => rfl
  | TransferPosition pi =>
      have h1 : pi < 2 ^ 16 := h
      simp [encode, decode, readLE2n _ h1]

/-! ### Closed-form output equations for the assembler functions -/

theorem create_market_eq (ctx : MarketContext) (s : List Nat) (a cd qd : Nat)
    (h : s.length < 2 ^ 32) :
    create_market ctx s a cd qd =
      some ⟨ctx.audaces_protocol_program_id,
        [AccountMeta.new ctx.market_account false,
         AccountMeta.new_readonly clock_id false,
         AccountMeta.new_readonly ctx.oracle_account false,
         AccountMeta.new_readonly ctx.admin_account false,
         AccountMeta.new_readonly ctx.market_vault false],
        0 :: toLE 1 ctx.signer_nonce ++ (toLE 4 s.length ++ s) ++ toLE 8 a
          ++ toLE 1 cd ++ toLE 1 qd⟩ := by
  have hs : serString s = some (toLE 4 s.length ++ s) := by
    simp only [serString, if_pos h]
  simp [create_market, encode, hs]

theorem update_oracle_account_eq (ctx : MarketContext) (m p pr : Pubkey) :
    update_oracle_account ctx m p pr =
      some ⟨ctx.audaces_protocol_program_id,
        [AccountMeta.new ctx.market_account false,
         AccountMeta.new_readonly m false,
         AccountMeta.new_readonly p false,
         AccountMeta.new_readonly pr false],
        [2]⟩ := rfl

theorem add_instance_eq (ctx : MarketContext) (ia : Pubkey) (mp : List Pubkey) :
    add_instance ctx ia mp =
      some ⟨ctx.audaces_protocol_program_id,
        [AccountMeta.new ctx.market_account false,
         AccountMeta.new ctx.admin_account true,
         AccountMeta.new ia false]
        ++ pageMetas mp,
        [1]⟩ := rfl

theorem add_budget_eq (ctx : MarketContext) (amount : Nat) (so sta opa : Pubkey) :
    add_budget ctx amount so sta opa =
      some ⟨ctx.audaces_protocol_program_id,
        [AccountMeta.new_readonly spl_token_id false,
         AccountMeta.new ctx.market_account false,
         AccountMeta.new ctx.market_vault false,
         AccountMeta.new opa false,
         AccountMeta.new_readonly so true,
         AccountMeta.new sta false],
        4 :: toLE 8 amount⟩ := rfl

theorem withdraw_budget_eq (ctx : MarketContext) (amount : Nat) (ta opo opa : Pubkey) :
    withdraw_budget ctx amount ta opo opa =
      some ⟨ctx.audaces_protocol_program_id,
        [AccountMeta.new_readonly spl_token_id false,
         AccountMeta.new ctx.market_account false,
         AccountMeta.new_readonly ctx.market_signer_account false,
         AccountMeta.new ctx.market_vault false,
         AccountMeta.new_readonly opo true,
         AccountMeta.new opa false,
         AccountMeta.new ta false],
        5 :: toLE 8 amount⟩ := rfl

theorem open_position_eq (ctx : MarketContext) (position : PositionInfo)
    (c l p m : Nat) (d : Option DiscountAccount) (r : Option Pubkey)
    (inst : InstanceContext) (h : ctx.instances[position.instance_index]? = some inst) :
    open_position ctx position c l p m d r =
      some ⟨ctx.audaces_protocol_program_id,
        [AccountMeta.new_readonly spl_token_id false,
         AccountMeta.new_readonly clock_id false,
         AccountMeta.new ctx.market_account false,
         AccountMeta.new inst.instance_account false,
         AccountMeta.new_readonly ctx.market_signer_account false,
         AccountMeta.new ctx.market_vault false,
         AccountMeta.new ctx.bonfida_bnb false,
         AccountMeta.new_readonly position.user_account_owner true,
         AccountMeta.new position.user_account false,
         AccountMeta.new_readonly trade_label_key false,
         AccountMeta.new_readonly ctx.oracle_account false]
        ++ pageMetas inst.memory_pages
        ++ discountMetas d
        ++ referrerMetas r,
        3 :: sideByte position.side :: toLE 8 c ++ toLE 1 position.instance_index
          ++ toLE 8 l ++ toLE 8 p ++ toLE 8 m⟩ := by
  simp [open_position, h, encode]

theorem increase_position_eq (ctx : MarketContext)
    (ac l idx pi : Nat) (po opa : Pubkey) (p m : Nat)
    (d : Option DiscountAccount) (r : Option Pubkey)
    (inst : InstanceContext) (h : ctx.instances[idx]? = some inst) :
    increase_position ctx ac l idx pi po opa p m d r =
      some ⟨ctx.audaces_protocol_program_id,
        [AccountMeta.new_readonly spl_token_id false,
         AccountMeta.new_readonly clock_id false,
         AccountMeta.new ctx.market_account false,
         AccountMeta.new_readonly ctx.market_signer_account false,
         AccountMeta.new ctx.market_vault false,
         AccountMeta.new ctx.bonfida_bnb false,
         AccountMeta.new inst.instance_account false,
         AccountMeta.new_readonly po true,
         AccountMeta.new opa false,
         AccountMeta.new_readonly trade_label_key false,
         AccountMeta.new_readonly ctx.oracle_account false]
        ++ pageMetas inst.memory_pages
        ++ discountMetas d
        ++ referrerMetas r,
        6 :: toLE 8 ac ++ toLE 1 idx ++ toLE 8 l ++ toLE 2 pi ++ toLE 8 p ++ toLE 8 m⟩ := by
  simp [increase_position, h, encode]

theorem close_position_eq (ctx : MarketContext) (position_info : PositionInfo)
    (cc cv pi p m : Nat) (d : Option DiscountAccount) (r : Option Pubkey)
    (inst : InstanceContext)
    (h : ctx.instances[position_info.instance_index]? = some inst) :
    close_position ctx position_info cc cv pi p m d r =
      some ⟨ctx.audaces_protocol_program_id,
        [AccountMeta.new_readonly spl_token_id false,
         AccountMeta.new_readonly clock_id false,
         AccountMeta.new ctx.market_account false,
         AccountMeta.new inst.instance_account false,
         AccountMeta.new_readonly ctx.market_signer_account false,
         AccountMeta.new ctx.market_vault false,
         AccountMeta.new ctx.bonfida_bnb false,
         AccountMeta.new_readonly ctx.oracle_account false,
         AccountMeta.new_readonly position_info.user_account_owner true,
         AccountMeta.new position_info.user_account false,
         AccountMeta.new_readonly trade_label_key false]
        ++ pageMetas inst.memory_pages
        ++ discountMetas d
        ++ referrerMetas r,
        7 :: toLE 2 pi ++ toLE 8 cc ++ toLE 8 cv ++ toLE 8 p ++ toLE 8 m⟩ := by
  simp [close_position, h, encode]

theorem collect_garbage_eq (ctx : MarketContext) (idx mi : Nat) (tgt : Pubkey)
    (inst : InstanceContext) (h : ctx.instances[idx]? = some inst) :
    collect_garbage ctx idx mi tgt =
      some ⟨ctx.audaces_protocol_program_id,
        [AccountMeta.new_readonly spl_token_id false,
         AccountMeta.new ctx.market_account false,
         AccountMeta.new inst.instance_account false,
         AccountMeta.new ctx.market_vault false,
         AccountMeta.new_readonly ctx.market_signer_account false,
         AccountMeta.new tgt false]
        ++ pageMetas inst.memory_pages,
        8 :: toLE 1 idx ++ toLE 8 mi⟩ := by
  simp [collect_garbage, h, encode]

theorem crank_liquidation_eq (ctx : MarketContext) (idx : Nat) (tgt : Pubkey)
    (inst : InstanceContext) (h : ctx.instances[idx]? = some inst) :
    crank_liquidation ctx idx tgt =
      some ⟨ctx.audaces_protocol_program_id,
        [AccountMeta.new_readonly spl_token_id false,
         AccountMeta.new ctx.market_account false,
         AccountMeta.new inst.instance_account false,
         AccountMeta.new_readonly ctx.market_signer_account false,
         AccountMeta.new ctx.bonfida_bnb false,
         AccountMeta.new ctx.market_vault false,
         AccountMeta.new_readonly ctx.oracle_account false,
         AccountMeta.new tgt false,
         AccountMeta.new_readonly liquidation_label_key false]
        ++ pageMetas inst.memory_pages,
        9 :: toLE 1 idx⟩ := by
  simp [crank_liquidation, h, encode]

theorem crank_funding_eq (ctx : MarketContext) :
    crank_funding ctx =
      some ⟨ctx.audaces_protocol_program_id,
        [AccountMeta.new_readonly clock_id false,
         AccountMeta.new ctx.market_account false,
         AccountMeta.new_readonly ctx.oracle_account false,
         AccountMeta.new_readonly funding_label_key false],
        [10]⟩ := rfl

theorem extract_funding_eq (ctx : MarketContext) (idx : Nat) (opa : Pubkey)
    (inst : InstanceContext) (h : ctx.instances[idx]? = some inst) :
    extract_funding ctx idx opa =
      some ⟨ctx.audaces_protocol_program_id,
        [AccountMeta.new ctx.market_account false,
         AccountMeta.new inst.instance_account false,
         AccountMeta.new opa false,
         AccountMeta.new_readonly funding_extraction_label_key false,
         AccountMeta.new_readonly ctx.oracle_account false]
        ++ pageMetas inst.memory_pages,
        11 :: toLE 1 idx⟩ := by
  simp [extract_funding, h, encode]

theorem change_k_eq (ctx : MarketContext) (factor : Nat) :
    change_k ctx factor =
      some ⟨ctx.audaces_protocol_program_id,
        [AccountMeta.new ctx.market_account false,
         AccountMeta.new_readonly ctx.admin_account true],
        12 :: toLE 8 factor⟩ := rfl

theorem close_account_eq (ctx : MarketContext) (ua uo lt : Pubkey) :
    close_account ctx ua uo lt =
      some ⟨ctx.audaces_protocol_program_id,
        [AccountMeta.new ua false,
         AccountMeta.new_readonly uo true,
         AccountMeta.new lt false],
        [13]⟩ := rfl

theorem add_page_eq (ctx : MarketContext) (idx : Nat) (np : Pubkey)
    (inst : InstanceContext) (h : ctx.instances[idx]? = some inst) :
    add_page ctx idx np =
      some ⟨ctx.audaces_protocol_program_id,
        [AccountMeta.new_readonly ctx.market_account false,
         AccountMeta.new_readonly ctx.admin_account true,
         AccountMeta.new inst.instance_account false,
         AccountMeta.new_readonly np false],
        14 :: toLE 1 idx⟩ := by
  simp [add_page, h, encode]

theorem rebalance_eq (ctx : MarketContext) (ua uo : Pubkey) (idx c : Nat)
    (inst inst0 : InstanceContext)
    (h : ctx.instances[idx]? = some inst) (h0 : ctx.instances[0]? = some inst0) :
    rebalance ctx ua uo idx c =
      some ⟨ctx.audaces_protocol_program_id,
        [AccountMeta.new_readonly spl_token_id false,
         AccountMeta.new_readonly clock_id false,
         AccountMeta.new ctx.market_account false,
         AccountMeta.new inst0.instance_account false,
         AccountMeta.new_readonly ctx.market_signer_account false,
         AccountMeta.new ctx.market_vault false,
         AccountMeta.new ctx.bonfida_bnb false,
         AccountMeta.new_readonly uo true,
         AccountMeta.new ua false,
         AccountMeta.new_readonly ctx.admin_account true]
        ++ pageMetas inst.memory_pages,
        15 :: toLE 8 c ++ toLE 1 idx⟩ := by
  simp [rebalance, h, h0, encode]

theorem transfer_user_account_eq (ctx : MarketContext) (ua uo nuo : Pubkey) :
    transfer_user_account ctx ua uo nuo =
      some ⟨ctx.audaces_protocol_program_id,
        [AccountMeta.new_readonly uo true,
         AccountMeta.new ua false,
         AccountMeta.new_readonly nuo false],
        [16]⟩ := rfl

theorem transfer_position_eq (ctx : MarketContext) (pi : Nat)
    (sua suo dua duo : Pubkey) :
    transfer_position ctx pi sua suo dua duo =
      some ⟨ctx.audaces_protocol_program_id,
        [AccountMeta.new_readonly suo true,
         AccountMeta.new sua false,
         AccountMeta.new_readonly duo true,
         AccountMeta.new dua false],
        17 :: toLE 2 pi⟩ := rfl

/-! ### Concrete sample contexts used by witnesses and counterexamples -/

/-- A small concrete market context: one instance, no memory pages. -/
def ctxC : MarketContext := ⟨100, 0, 101, 102, 103, 104, 105, 106, [⟨107, []⟩]⟩

/-- A concrete position in `ctxC`. -/
def posC : PositionInfo := ⟨108, 109, 0, .Long⟩

/-- A concrete market context with two instances holding two pages and one
page respectively. -/
def ctxW : MarketContext :=
  ⟨200, 9, 201, 202, 203, 204, 205, 206, [⟨210, [220, 221]⟩, ⟨211, [222]⟩]⟩

/-- A concrete position in `ctxW`. -/
def posW : PositionInfo := ⟨230, 231, 0, .Long⟩

/-- A concrete market context with exactly one instance holding exactly two
memory pages. -/
def ctxG : MarketContext :=
  ⟨200, 9, 201, 202, 203, 204, 205, 206, [⟨210, [220, 221]⟩]⟩

/-! ### The claimed payload layout, stated from the spec's words -/

/-- Stated from the spec: the discriminant of each variant is its
declaration-order index, CreateMarket = 0 through TransferPosition = 17. -/
def discriminant : PerpInstruction → Nat
  | .CreateMarket .. => 0
  | .AddInstance => 1
  | .UpdateOracleAccount => 2
  | .OpenPosition .. => 3
  | .AddBudget _ => 4
  | .WithdrawBudget _ => 5
  | .IncreasePosition .. => 6
  | .ClosePosition .. => 7
  | .CollectGarbage .. => 8
  | .CrankLiquidation _ => 9
  | .CrankFunding => 10
  | .FundingExtraction _ => 11
  | .ChangeK _ => 12
  | .CloseAccount => 13
  | .AddPage _ => 14
  | .Rebalance .. => 15
  | .TransferUserAccount => 16
  | .TransferPosition _ => 17

/-- Stated from the spec: the argument fields of each variant, in declared
order, each in fixed-width little-endian encoding; a string argument as a
4-byte little-endian length prefix followed by its raw bytes; the side flag
as a single byte. -/
def fieldBytes : PerpInstruction → List Nat
  | .CreateMarket n s a cd qd =>
      toLE 1 n ++ (toLE 4 s.length ++ s) ++ toLE 8 a ++ toLE 1 cd ++ toLE 1 qd
  | .AddInstance => []
  | .UpdateOracleAccount => []
  | .OpenPosition side c i l p m =>
      [sideByte side] ++ toLE 8 c ++ toLE 1 i ++ toLE 8 l ++ toLE 8 p ++ toLE 8 m
  | .AddBudget a => toLE 8 a
  | .WithdrawBudget a => toLE 8 a
  | .IncreasePosition ac i l pi p m =>
      toLE 8 ac ++ toLE 1 i ++ toLE 8 l ++ toLE 2 pi ++ toLE 8 p ++ toLE 8 m
  | .ClosePosition pi cc cv p m =>
      toLE 2 pi ++ toLE 8 cc ++ toLE 8 cv ++ toLE 8 p ++ toLE 8 m
  | .CollectGarbage i mi => toLE 1 i ++ toLE 8 mi
  | .CrankLiquidation i => toLE 1 i
  | .CrankFunding => []
  | .FundingExtraction i => toLE 1 i
  | .ChangeK f => toLE 8 f
  | .CloseAccount => []
  | .AddPage i => toLE 1 i
  | .Rebalance c i => toLE 8 c ++ toLE 1 i
  | .TransferUserAccount => []
  | .TransferPosition pi => toLE 2 pi

/-- Claim C1: for every well-formed `PerpInstruction` value, the encoded
payload is exactly one discriminant byte equal to the declaration-order
index of the variant, followed by each argument field in declared order in
fixed-width little-endian encoding (strings length-prefixed with a 4-byte
little-endian length, the side flag a single byte). -/
theorem payload_layout (v : PerpInstruction) (h : wf v) :
    encode v = some (discriminant v :: fieldBytes v) := by
  cases v with
  | CreateMarket n s a cd qd =>
      obtain ⟨h1, h2, h3, h4, h5, h6⟩ := h
      have hs : serString s = some (toLE 4 s.length ++ s) := by
        simp only [serString, if_pos h2]
      simp [encode, hs, discriminant, fieldBytes]
  | _ => rfl

/-- Witness for C1 at a concrete value. -/
theorem payload_layout_witness :
    wf (.CreateMarket 3 [72, 73] 500 6 6) ∧
      encode (.CreateMarket 3 [72, 73] 500 6 6) =
        some (discriminant (.CreateMarket 3 [72, 73] 500 6 6)
          :: fieldBytes (.CreateMarket 3 [72, 73] 500 6 6)) :=
  ⟨by decide, payload_layout (.CreateMarket 3 [72, 73] 500 6 6) (by decide)⟩

/-- Claim C2: for a context with exactly one instance holding exactly two
memory pages, `collect_garbage` with instance index 0, 5 iterations and any
target yields 6 fixed references followed by the 2 page references (8 in
total) and the payload `[8, 0, 5, 0, 0, 0, 0, 0, 0, 0]`. -/
theorem collect_garbage_scenario (ctx : MarketContext) (ia p1 p2 tgt : Pubkey)
    (h : ctx.instances = [⟨ia, [p1, p2]⟩]) :
    collect_garbage ctx 0 5 tgt =
      some ⟨ctx.audaces_protocol_program_id,
        [AccountMeta.new_readonly spl_token_id false,
         AccountMeta.new ctx.market_account false,
         AccountMeta.new ia false,
         AccountMeta.new ctx.market_vault false,
         AccountMeta.new_readonly ctx.market_signer_account false,
         AccountMeta.new tgt false]
        ++ [AccountMeta.new p1 false, AccountMeta.new p2 false],
        [8, 0, 5, 0, 0, 0, 0, 0, 0, 0]⟩ ∧
    (collect_garbage ctx 0 5 tgt).map (fun i => i.accounts.length) = some 8 := by
  have heq := collect_garbage_eq ctx 0 5 tgt ⟨ia, [p1, p2]⟩ (by simp [h])
  rw [heq]
  constructor
  · simp [pageMetas, toLE]
  · simp [pageMetas]

/-- Witness for C2 at a concrete context. -/
theorem collect_garbage_scenario_witness :
    ctxG.instances = [⟨210, [220, 221]⟩] ∧
      collect_garbage ctxG 0 5 240 =
        some ⟨ctxG.audaces_protocol_program_id,
          [AccountMeta.new_readonly spl_token_id false,
           AccountMeta.new ctxG.market_account false,
           AccountMeta.new 210 false,
           AccountMeta.new ctxG.market_vault false,
           AccountMeta.new_readonly ctxG.market_signer_account false,
           AccountMeta.new 240 false]
          ++ [AccountMeta.new 220 false, AccountMeta.new 221 false],
          [8, 0, 5, 0, 0, 0, 0, 0, 0, 0]⟩ :=
  ⟨rfl, (collect_garbage_scenario ctxG 210 220 221 240 rfl).1⟩

/-- Claim C3: calling `open_position` with an instance index at or beyond
the length of the instance list fails (the source's out-of-bounds indexing
panic, modelled as `none`): no instruction is ever produced from a clamped
index, and the embedding is total, so nothing is read out of bounds. -/
theorem open_position_out_of_bounds (ctx : MarketContext) (position : PositionInfo)
    (c l p m : Nat) (d : Option DiscountAccount) (r : Option Pubkey)
    (h : ctx.instances.length ≤ position.instance_index) :
    open_position ctx position c l p m d r = none := by
  simp [open_position, List.getElem?_eq_none h]

/-- Witness for C3 at a concrete context with one instance and index 7. -/
theorem open_position_out_of_bounds_witness :
    ctxC.instances.length ≤ (7 : Nat) ∧
      open_position ctxC ⟨108, 109, 7, .Long⟩ 1 1 1 1 none none = none :=
  ⟨by decide, open_position_out_of_bounds ctxC ⟨108, 109, 7, .Long⟩ 1 1 1 1 none none
    (by decide)⟩

/-- Claim C4: for every valid input, `open_position` produces exactly the
11 fixed-prefix references, in order and with these flags: token program
(ro), clock (ro), market (rw), instance (rw), market signer (ro), vault
(rw), fee sink (rw), position owner (ro, signer), position account (rw),
trade-fee label (ro), oracle (ro) — followed by the paged accounts and then
the optional segments. -/
theorem open_position_account_order (ctx : MarketContext) (position : PositionInfo)
    (c l p m : Nat) (d : Option DiscountAccount) (r : Option Pubkey)
    (inst : InstanceContext) (h : ctx.instances[position.instance_index]? = some inst) :
    (open_position ctx position c l p m d r).map (fun i => i.accounts) =
      some ([AccountMeta.new_readonly spl_token_id false,
         AccountMeta.new_readonly clock_id false,
         AccountMeta.new ctx.market_account false,
         AccountMeta.new inst.instance_account false,
         AccountMeta.new_readonly ctx.market_signer_account false,
         AccountMeta.new ctx.market_vault false,
         AccountMeta.new ctx.bonfida_bnb false,
         AccountMeta.new_readonly position.user_account_owner true,
         AccountMeta.new position.user_account false,
         AccountMeta.new_readonly trade_label_key false,
         AccountMeta.new_readonly ctx.oracle_account false]
        ++ pageMetas inst.memory_pages
        ++ discountMetas d
        ++ referrerMetas r) := by
  rw [open_position_eq ctx position c l p m d r inst h]
  rfl

/-- Witness for C4 at a concrete context. -/
theorem open_position_account_order_witness :
    ctxC.instances[(0 : Nat)]? = some ⟨107, []⟩ ∧
      (open_position ctxC posC 1 2 3 4 none none).map (fun i => i.accounts) =
        some ([AccountMeta.new_readonly spl_token_id false,
           AccountMeta.new_readonly clock_id false,
           AccountMeta.new ctxC.market_account false,
           AccountMeta.new 107 false,
           AccountMeta.new_readonly ctxC.market_signer_account false,
           AccountMeta.new ctxC.market_vault false,
           AccountMeta.new ctxC.bonfida_bnb false,
           AccountMeta.new_readonly posC.user_account_owner true,
           AccountMeta.new posC.user_account false,
           AccountMeta.new_readonly trade_label_key false,
           AccountMeta.new_readonly ctxC.oracle_account false]
          ++ pageMetas [] ++ discountMetas none ++ referrerMetas none) :=
  ⟨rfl, open_position_account_order ctxC posC 1 2 3 4 none none ⟨107, []⟩ rfl⟩

/-- Claim C5: relative to the call with neither optional account, supplying
a discount account appends exactly 2 extra references, a referrer exactly
1, and both exactly 3 with the discount pair before the referral reference;
everything before the optional segment is unchanged. -/
theorem open_position_optional_segments (ctx : MarketContext)
    (position : PositionInfo) (c l p m : Nat) (da : DiscountAccount) (rf : Pubkey)
    (inst : InstanceContext) (h : ctx.instances[position.instance_index]? = some inst) :
    open_position ctx position c l p m (some da) none =
      (open_position ctx position c l p m none none).map
        (fun i => ⟨i.program_id,
          i.accounts ++ [AccountMeta.new_readonly da.address false,
            AccountMeta.new_readonly da.owner true], i.data⟩) ∧
    open_position ctx position c l p m none (some rf) =
      (open_position ctx position c l p m none none).map
        (fun i => ⟨i.program_id, i.accounts ++ [AccountMeta.new rf false], i.data⟩) ∧
    open_position ctx position c l p m (some da) (some rf) =
      (open_position ctx position c l p m none none).map
        (fun i => ⟨i.program_id,
          i.accounts ++ [AccountMeta.new_readonly da.address false,
            AccountMeta.new_readonly da.owner true, AccountMeta.new rf false], i.data⟩) := by
  refine ⟨?_, ?_, ?_⟩ <;>
    (rw [open_position_eq ctx position c l p m _ _ inst h,
      open_position_eq ctx position c l p m none none inst h]
     simp [discountMetas, referrerMetas])

/-- Witness for C5 at a concrete context. -/
theorem open_position_optional_segments_witness :
    ctxC.instances[(0 : Nat)]? = some ⟨107, []⟩ ∧
      open_position ctxC posC 1 2 3 4 (some ⟨10, 11⟩) (some 12) =
        (open_position ctxC posC 1 2 3 4 none none).map
          (fun i => ⟨i.program_id,
            i.accounts ++ [AccountMeta.new_readonly 11 false,
              AccountMeta.new_readonly 10 true, AccountMeta.new 12 false], i.data⟩) :=
  ⟨rfl, (open_position_optional_segments ctxC posC 1 2 3 4 ⟨10, 11⟩ 12 ⟨107, []⟩ rfl).2.2⟩

/-- Witness for C7 at a concrete value. -/
theorem decode_encode_roundtrip_witness :
    wf (.CreateMarket 7 [65, 66, 67] 1000000 6 6) ∧
      (encode (.CreateMarket 7 [65, 66, 67] 1000000 6 6)).bind decode =
        some (.CreateMarket 7 [65, 66, 67] 1000000 6 6) :=
  ⟨by decide, decode_encode_roundtrip (.CreateMarket 7 [65, 66, 67] 1000000 6 6) (by decide)⟩

/-! ### Paged-account fan-out (claim C6) -/

/-- Claim C6: for every operation kind that includes the paged segment
(`open_position`, `increase_position`, `close_position`, `collect_garbage`,
`crank_liquidation`, `extract_funding`, `rebalance`, `add_instance`) the
account list is the fixed prefix, then exactly the instance's memory pages
as writable non-signer references in stored order, then any optional
segment. -/
theorem paged_fanout (ctx : MarketContext) (position : PositionInfo)
    (idx c l p m pi mi : Nat)
    (inst instp inst0 : InstanceContext)
    (po opa tgt ua uo ia : Pubkey) (mp : List Pubkey)
    (d : Option DiscountAccount) (r : Option Pubkey)
    (hp : ctx.instances[position.instance_index]? = some instp)
    (h : ctx.instances[idx]? = some inst)
    (h0 : ctx.instances[0]? = some inst0) :
    open_position ctx position c l p m d r =
      some ⟨ctx.audaces_protocol_program_id,
        [AccountMeta.new_readonly spl_token_id false,
         AccountMeta.new_readonly clock_id false,
         AccountMeta.new ctx.market_account false,
         AccountMeta.new instp.instance_account false,
         AccountMeta.new_readonly ctx.market_signer_account false,
         AccountMeta.new ctx.market_vault false,
         AccountMeta.new ctx.bonfida_bnb false,
         AccountMeta.new_readonly position.user_account_owner true,
         AccountMeta.new position.user_account false,
         AccountMeta.new_readonly trade_label_key false,
         AccountMeta.new_readonly ctx.oracle_account false]
        ++ pageMetas instp.memory_pages ++ discountMetas d ++ referrerMetas r,
        3 :: sideByte position.side :: toLE 8 c ++ toLE 1 position.instance_index
          ++ toLE 8 l ++ toLE 8 p ++ toLE 8 m⟩ ∧
    increase_position ctx c l idx pi po opa p m d r =
      some ⟨ctx.audaces_protocol_program_id,
        [AccountMeta.new_readonly spl_token_id false,
         AccountMeta.new_readonly clock_id false,
         AccountMeta.new ctx.market_account false,
         AccountMeta.new_readonly ctx.market_signer_account false,
         AccountMeta.new ctx.market_vault false,
         AccountMeta.new ctx.bonfida_bnb false,
         AccountMeta.new inst.instance_account false,
         AccountMeta.new_readonly po true,
         AccountMeta.new opa false,
         AccountMeta.new_readonly trade_label_key false,
         AccountMeta.new_readonly ctx.oracle_account false]
        ++ pageMetas inst.memory_pages ++ discountMetas d ++ referrerMetas r,
        6 :: toLE 8 c ++ toLE 1 idx ++ toLE 8 l ++ toLE 2 pi ++ toLE 8 p ++ toLE 8 m⟩ ∧
    close_position ctx position c l pi p m d r =
      some ⟨ctx.audaces_protocol_program_id,
        [AccountMeta.new_readonly spl_token_id false,
         AccountMeta.new_readonly clock_id false,
         AccountMeta.new ctx.market_account false,
         AccountMeta.new instp.instance_account false,
         AccountMeta.new_readonly ctx.market_signer_account false,
         AccountMeta.new ctx.market_vault false,
         AccountMeta.new ctx.bonfida_bnb false,
         AccountMeta.new_readonly ctx.oracle_account false,
         AccountMeta.new_readonly position.user_account_owner true,
         AccountMeta.new position.user_account false,
         AccountMeta.new_readonly trade_label_key false]
        ++ pageMetas instp.memory_pages ++ discountMetas d ++ referrerMetas r,
        7 :: toLE 2 pi ++ toLE 8 c ++ toLE 8 l ++ toLE 8 p ++ toLE 8 m⟩ ∧
    collect_garbage ctx idx mi tgt =
      some ⟨ctx.audaces_protocol_program_id,
        [AccountMeta.new_readonly spl_token_id false,
         AccountMeta.new ctx.market_account false,
         AccountMeta.new inst.instance_account false,
         AccountMeta.new ctx.market_vault false,
         AccountMeta.new_readonly ctx.market_signer_account false,
         AccountMeta.new tgt false]
        ++ pageMetas inst.memory_pages,
        8 :: toLE 1 idx ++ toLE 8 mi⟩ ∧
    crank_liquidation ctx idx tgt =
      some ⟨ctx.audaces_protocol_program_id,
        [AccountMeta.new_readonly spl_token_id false,
         AccountMeta.new ctx.market_account false,
         AccountMeta.new inst.instance_account false,
         AccountMeta.new_readonly ctx.market_signer_account false,
         AccountMeta.new ctx.bonfida_bnb false,
         AccountMeta.new ctx.market_vault false,
         AccountMeta.new_readonly ctx.oracle_account false,
         AccountMeta.new tgt false,
         AccountMeta.new_readonly liquidation_label_key false]
        ++ pageMetas inst.memory_pages,
        9 :: toLE 1 idx⟩ ∧
    extract_funding ctx idx opa =
      some ⟨ctx.audaces_protocol_program_id,
        [AccountMeta.new ctx.market_account false,
         AccountMeta.new inst.instance_account false,
         AccountMeta.new opa false,
         AccountMeta.new_readonly funding_extraction_label_key false,
         AccountMeta.new_readonly ctx.oracle_account false]
        ++ pageMetas inst.memory_pages,
        11 :: toLE 1 idx⟩ ∧
    rebalance ctx ua uo idx c =
      some ⟨ctx.audaces_protocol_program_id,
        [AccountMeta.new_readonly spl_token_id false,
         AccountMeta.new_readonly clock_id false,
         AccountMeta.new ctx.market_account false,
         AccountMeta.new inst0.instance_account false,
         AccountMeta.new_readonly ctx.market_signer_account false,
         AccountMeta.new ctx.market_vault false,
         AccountMeta.new ctx.bonfida_bnb false,
         AccountMeta.new_readonly uo true,
         AccountMeta.new ua false,
         AccountMeta.new_readonly ctx.admin_account true]
        ++ pageMetas inst.memory_pages,
        15 :: toLE 8 c ++ toLE 1 idx⟩ ∧
    add_instance ctx ia mp =
      some ⟨ctx.audaces_protocol_program_id,
        [AccountMeta.new ctx.market_account false,
         AccountMeta.new ctx.admin_account true,
         AccountMeta.new ia false]
        ++ pageMetas mp,
        [1]⟩ :=
  ⟨open_position_eq ctx position c l p m d r instp hp,
   increase_position_eq ctx c l idx pi po opa p m d r inst h,
   close_position_eq ctx position c l pi p m d r instp hp,
   collect_garbage_eq ctx idx mi tgt inst h,
   crank_liquidation_eq ctx idx tgt inst h,
   extract_funding_eq ctx idx opa inst h,
   rebalance_eq ctx ua uo idx c inst inst0 h h0,
   add_instance_eq ctx ia mp⟩

/-- Witness for C6 at a concrete two-instance context. -/
theorem paged_fanout_witness :
    ctxW.instances[posW.instance_index]? = some ⟨210, [220, 221]⟩ ∧
    ctxW.instances[(1 : Nat)]? = some ⟨211, [222]⟩ ∧
    ctxW.instances[(0 : Nat)]? = some ⟨210, [220, 221]⟩ ∧
    open_position ctxW posW 1 2 3 4 (some ⟨20, 21⟩) (some 22) =
      some ⟨ctxW.audaces_protocol_program_id,
        [AccountMeta.new_readonly spl_token_id false,
         AccountMeta.new_readonly clock_id false,
         AccountMeta.new ctxW.market_account false,
         AccountMeta.new 210 false,
         AccountMeta.new_readonly ctxW.market_signer_account false,
         AccountMeta.new ctxW.market_vault false,
         AccountMeta.new ctxW.bonfida_bnb false,
         AccountMeta.new_readonly posW.user_account_owner true,
         AccountMeta.new posW.user_account false,
         AccountMeta.new_readonly trade_label_key false,
         AccountMeta.new_readonly ctxW.oracle_account false]
        ++ pageMetas [220, 221] ++ discountMetas (some ⟨20, 21⟩) ++ referrerMetas (some 22),
        3 :: sideByte posW.side :: toLE 8 1 ++ toLE 1 posW.instance_index
          ++ toLE 8 2 ++ toLE 8 3 ++ toLE 8 4⟩ ∧
    increase_position ctxW 1 2 1 5 10 11 3 4 (some ⟨20, 21⟩) (some 22) =
      some ⟨ctxW.audaces_protocol_program_id,
        [AccountMeta.new_readonly spl_token_id false,
         AccountMeta.new_readonly clock_id false,
         AccountMeta.new ctxW.market_account false,
         AccountMeta.new_readonly ctxW.market_signer_account false,
         AccountMeta.new ctxW.market_vault false,
         AccountMeta.new ctxW.bonfida_bnb false,
         AccountMeta.new 211 false,
         AccountMeta.new_readonly 10 true,
         AccountMeta.new 11 false,
         AccountMeta.new_readonly trade_label_key false,
         AccountMeta.new_readonly ctxW.oracle_account false]
        ++ pageMetas [222] ++ discountMetas (some ⟨20, 21⟩) ++ referrerMetas (some 22),
        6 :: toLE 8 1 ++ toLE 1 1 ++ toLE 8 2 ++ toLE 2 5 ++ toLE 8 3 ++ toLE 8 4⟩ ∧
    close_position ctxW posW 1 2 5 3 4 (some ⟨20, 21⟩) (some 22) =
      some ⟨ctxW.audaces_protocol_program_id,
        [AccountMeta.new_readonly spl_token_id false,
         AccountMeta.new_readonly clock_id false,
         AccountMeta.new ctxW.market_account false,
         AccountMeta.new 210 false,
         AccountMeta.new_readonly ctxW.market_signer_account false,
         AccountMeta.new ctxW.market_vault false,
         AccountMeta.new ctxW.bonfida_bnb false,
         AccountMeta.new_readonly ctxW.oracle_account false,
         AccountMeta.new_readonly posW.user_account_owner true,
         AccountMeta.new posW.user_account false,
         AccountMeta.new_readonly trade_label_key false]
        ++ pageMetas [220, 221] ++ discountMetas (some ⟨20, 21⟩) ++ referrerMetas (some 22),
        7 :: toLE 2 5 ++ toLE 8 1 ++ toLE 8 2 ++ toLE 8 3 ++ toLE 8 4⟩ ∧
    collect_garbage ctxW 1 6 12 =
      some ⟨ctxW.audaces_protocol_program_id,
        [AccountMeta.new_readonly spl_token_id false,
         AccountMeta.new ctxW.market_account false,
         AccountMeta.new 211 false,
         AccountMeta.new ctxW.market_vault false,
         AccountMeta.new_readonly ctxW.market_signer_account false,
         AccountMeta.new 12 false]
        ++ pageMetas [222],
        8 :: toLE 1 1 ++ toLE 8 6⟩ ∧
    crank_liquidation ctxW 1 12 =
      some ⟨ctxW.audaces_protocol_program_id,
        [AccountMeta.new_readonly spl_token_id false,
         AccountMeta.new ctxW.market_account false,
         AccountMeta.new 211 false,
         AccountMeta.new_readonly ctxW.market_signer_account false,
         AccountMeta.new ctxW.bonfida_bnb false,
         AccountMeta.new ctxW.market_vault false,
         AccountMeta.new_readonly ctxW.oracle_account false,
         AccountMeta.new 12 false,
         AccountMeta.new_readonly liquidation_label_key false]
        ++ pageMetas [222],
        9 :: toLE 1 1⟩ ∧
    extract_funding ctxW 1 11 =
      some ⟨ctxW.audaces_protocol_program_id,
        [AccountMeta.new ctxW.market_account false,
         AccountMeta.new 211 false,
         AccountMeta.new 11 false,
         AccountMeta.new_readonly funding_extraction_label_key false,
         AccountMeta.new_readonly ctxW.oracle_account false]
        ++ pageMetas [222],
        11 :: toLE 1 1⟩ ∧
    rebalance ctxW 13 14 1 1 =
      some ⟨ctxW.audaces_protocol_program_id,
        [AccountMeta.new_readonly spl_token_id false,
         AccountMeta.new_readonly clock_id false,
         AccountMeta.new ctxW.market_account false,
         AccountMeta.new 210 false,
         AccountMeta.new_readonly ctxW.market_signer_account false,
         AccountMeta.new ctxW.market_vault false,
         AccountMeta.new ctxW.bonfida_bnb false,
         AccountMeta.new_readonly 14 true,
         AccountMeta.new 13 false,
         AccountMeta.new_readonly ctxW.admin_account true]
        ++ pageMetas [222],
        15 :: toLE 8 1 ++ toLE 1 1⟩ ∧
    add_instance ctxW 15 [16, 17] =
      some ⟨ctxW.audaces_protocol_program_id,
        [AccountMeta.new ctxW.market_account false,
         AccountMeta.new ctxW.admin_account true,
         AccountMeta.new 15 false]
        ++ pageMetas [16, 17],
        [1]⟩ :=
  ⟨rfl, rfl, rfl,
   paged_fanout ctxW posW 1 1 2 3 4 5 6 ⟨211, [222]⟩ ⟨210, [220, 221]⟩ ⟨210, [220, 221]⟩
     10 11 12 13 14 15 [16, 17] (some ⟨20, 21⟩) (some 22) rfl rfl rfl⟩

/-! ### The discount pair (claim C8) -/

/-- Counterexample for C8: the claim states the discount pair is the owner
reference followed by the address reference, but at this concrete input the
two appended references carry the address (11) first and the owner (10)
second, and the two identities differ. -/
theorem discount_pair_order_cex :
    (open_position ctxC posC 1 1 1 1 (some ⟨10, 11⟩) none).map
        (fun i => (i.accounts.drop 11).map AccountMeta.pubkey) = some [11, 10] ∧
    (⟨10, 11⟩ : DiscountAccount).owner = 10 ∧
    (⟨10, 11⟩ : DiscountAccount).address = 11 ∧
    (10 : Pubkey) ≠ 11 := by
  refine ⟨by decide, rfl, rfl, by decide⟩

/-- Claim C8 as amended: in `open_position`, `increase_position` and
`close_position`, exactly two discount references are appended iff a
discount account is supplied, and they are the discount address reference
(read-only) followed by the discount owner reference (read-only signer),
placed before any referral reference; without a discount account nothing is
inserted there. -/
theorem discount_pair_appended (ctx : MarketContext) (position : PositionInfo)
    (c l pi p m idx : Nat) (po opa : Pubkey) (da : DiscountAccount) (r : Option Pubkey)
    (instp inst : InstanceContext)
    (hp : ctx.instances[position.instance_index]? = some instp)
    (h : ctx.instances[idx]? = some inst) :
    open_position ctx position c l p m (some da) r =
      (open_position ctx position c l p m none none).map
        (fun i => ⟨i.program_id,
          i.accounts ++ [AccountMeta.new_readonly da.address false,
            AccountMeta.new_readonly da.owner true] ++ referrerMetas r, i.data⟩) ∧
    open_position ctx position c l p m none r =
      (open_position ctx position c l p m none none).map
        (fun i => ⟨i.program_id, i.accounts ++ referrerMetas r, i.data⟩) ∧
    increase_position ctx c l idx pi po opa p m (some da) r =
      (increase_position ctx c l idx pi po opa p m none none).map
        (fun i => ⟨i.program_id,
          i.accounts ++ [AccountMeta.new_readonly da.address false,
            AccountMeta.new_readonly da.owner true] ++ referrerMetas r, i.data⟩) ∧
    increase_position ctx c l idx pi po opa p m none r =
      (increase_position ctx c l idx pi po opa p m none none).map
        (fun i => ⟨i.program_id, i.accounts ++ referrerMetas r, i.data⟩) ∧
    close_position ctx position c l pi p m (some da) r =
      (close_position ctx position c l pi p m none none).map
        (fun i => ⟨i.program_id,
          i.accounts ++ [AccountMeta.new_readonly da.address false,
            AccountMeta.new_readonly da.owner true] ++ referrerMetas r, i.data⟩) ∧
    close_position ctx position c l pi p m none r =
      (close_position ctx position c l pi p m none none).map
        (fun i => ⟨i.program_id, i.accounts ++ referrerMetas r, i.data⟩) := by
  refine ⟨?_, ?_, ?_, ?_, ?_, ?_⟩
  · rw [open_position_eq ctx position c l p m (some da) r instp hp,
      open_position_eq ctx position c l p m none none instp hp]
    simp [discountMetas, referrerMetas, List.append_assoc]
  · rw [open_position_eq ctx position c l p m none r instp hp,
      open_position_eq ctx position c l p m none none instp hp]
    simp [discountMetas, referrerMetas, List.append_assoc]
  · rw [increase_position_eq ctx c l idx pi po opa p m (some da) r inst h,
      increase_position_eq ctx c l idx pi po opa p m none none inst h]
    simp [discountMetas, referrerMetas, List.append_assoc]
  · rw [increase_position_eq ctx c l idx pi po opa p m none r inst h,
      increase_position_eq ctx c l idx pi po opa p m none none inst h]
    simp [discountMetas, referrerMetas, List.append_assoc]
  · rw [close_position_eq ctx position c l pi p m (some da) r instp hp,
      close_position_eq ctx position c l pi p m none none instp hp]
    simp [discountMetas, referrerMetas, List.append_assoc]
  · rw [close_position_eq ctx position c l pi p m none r instp hp,
      close_position_eq ctx position c l pi p m none none instp hp]
    simp [discountMetas, referrerMetas, List.append_assoc]

/-- Witness for the amended C8 at a concrete context. -/
theorem discount_pair_appended_witness :
    ctxC.instances[posC.instance_index]? = some ⟨107, []⟩ ∧
    ctxC.instances[(0 : Nat)]? = some ⟨107, []⟩ ∧
    (open_position ctxC posC 1 2 3 4 (some ⟨10, 11⟩) (some 12) =
      (open_position ctxC posC 1 2 3 4 none none).map
        (fun i => ⟨i.program_id,
          i.accounts ++ [AccountMeta.new_readonly 11 false,
            AccountMeta.new_readonly 10 true] ++ referrerMetas (some 12), i.data⟩) ∧
    open_position ctxC posC 1 2 3 4 none (some 12) =
      (open_position ctxC posC 1 2 3 4 none none).map
        (fun i => ⟨i.program_id, i.accounts ++ referrerMetas (some 12), i.data⟩) ∧
    increase_position ctxC 1 2 0 5 20 21 3 4 (some ⟨10, 11⟩) (some 12) =
      (increase_position ctxC 1 2 0 5 20 21 3 4 none none).map
        (fun i => ⟨i.program_id,
          i.accounts ++ [AccountMeta.new_readonly 11 false,
            AccountMeta.new_readonly 10 true] ++ referrerMetas (some 12), i.data⟩) ∧
    increase_position ctxC 1 2 0 5 20 21 3 4 none (some 12) =
      (increase_position ctxC 1 2 0 5 20 21 3 4 none none).map
        (fun i => ⟨i.program_id, i.accounts ++ referrerMetas (some 12), i.data⟩) ∧
    close_position ctxC posC 1 2 5 3 4 (some ⟨10, 11⟩) (some 12) =
      (close_position ctxC posC 1 2 5 3 4 none none).map
        (fun i => ⟨i.program_id,
          i.accounts ++ [AccountMeta.new_readonly 11 false,
            AccountMeta.new_readonly 10 true] ++ referrerMetas (some 12), i.data⟩) ∧
    close_position ctxC posC 1 2 5 3 4 none (some 12) =
      (close_position ctxC posC 1 2 5 3 4 none none).map
        (fun i => ⟨i.program_id, i.accounts ++ referrerMetas (some 12), i.data⟩)) :=
  ⟨rfl, rfl,
   discount_pair_appended ctxC posC 1 2 5 3 4 0 20 21 ⟨10, 11⟩ (some 12)
     ⟨107, []⟩ ⟨107, []⟩ rfl rfl⟩

/-! ### Flag consistency across one request (claim C9) -/

/-- No account identity appears at two positions of the list with
conflicting mutable or signer flags. -/
def flagsConsistent (l : List AccountMeta) : Prop :=
  ∀ a ∈ l, ∀ b ∈ l, a.pubkey = b.pubkey →
    a.is_signer = b.is_signer ∧ a.is_writable = b.is_writable

instance : DecidablePred flagsConsistent := fun l => by
  unfold flagsConsistent
  infer_instance

/-- Every instruction produced (if any) has a flag-consistent account
list. -/
def allAccountsConsistent (o : Option Instruction) : Prop :=
  ∀ ins ∈ o, flagsConsistent ins.accounts

instance : DecidablePred allAccountsConsistent := fun o => by
  unfold allAccountsConsistent
  cases o with
  | none => exact isTrue (fun ins h => absurd h (by simp))
  | some i => exact decidable_of_iff (flagsConsistent i.accounts) (by simp)

theorem flagsConsistent_of_nodup (l : List AccountMeta)
    (h : (l.map AccountMeta.pubkey).Nodup) : flagsConsistent l := by
  intro a ha b hb hab
  obtain rfl := List.inj_on_of_nodup_map h ha hb hab
  exact ⟨rfl, rfl⟩

theorem pageMetas_map_pubkey (ps : List Pubkey) :
    (pageMetas ps).map AccountMeta.pubkey = ps := by
  induction ps with
  | nil => rfl
  | cons x xs ih =>
      simp only [pageMetas, List.map_cons] at ih ⊢
      rw [ih]
      rfl

/-- Counterexample for C9: with the user account equal to its owner
account, `transfer_user_account` reuses identity 5 as a read-only signer
and as a writable non-signer in one request, so the unconditional claim
fails. -/
theorem flag_conflict_cex :
    transfer_user_account ctxC 5 5 7 =
      some ⟨100, [⟨5, true, false⟩, ⟨5, false, true⟩, ⟨7, false, false⟩], [16]⟩ ∧
    ¬ flagsConsistent [⟨5, true, false⟩, ⟨5, false, true⟩, ⟨7, false, false⟩] := by
  refine ⟨rfl, by decide⟩

/-- Claim C9 as amended: for every construction function, whenever the
account identities appearing in one request are pairwise distinct (the
unconditional claim fails when a caller passes the same identity in two
roles), no identity appears at two positions with conflicting mutable or
signer flags. -/
theorem flags_consistent_of_distinct (ctx : MarketContext) (position : PositionInfo)
    (s : List Nat) (a cd qd c l p m pi mi idx : Nat)
    (pm pp ppr ia so sta opa ta opo po tgt ua uo lt np nuo sua suo dua duo : Pubkey)
    (mp : List Pubkey) (d : Option DiscountAccount) (r : Option Pubkey)
    (instp inst inst0 : InstanceContext)
    (hstr : s.length < 2 ^ 32)
    (hp : ctx.instances[position.instance_index]? = some instp)
    (h : ctx.instances[idx]? = some inst)
    (h0 : ctx.instances[0]? = some inst0)
    (hn1 : ([ctx.market_account, clock_id, ctx.oracle_account, ctx.admin_account,
      ctx.market_vault] : List Pubkey).Nodup)
    (hn2 : ([ctx.market_account, pm, pp, ppr] : List Pubkey).Nodup)
    (hn3 : (([ctx.market_account, ctx.admin_account, ia] : List Pubkey) ++ mp).Nodup)
    (hn4 : ([spl_token_id, ctx.market_account, ctx.market_vault, opa, so, sta] :
      List Pubkey).Nodup)
    (hn5 : ([spl_token_id, ctx.market_account, ctx.market_signer_account,
      ctx.market_vault, opo, opa, ta] : List Pubkey).Nodup)
    (hn6 : (([spl_token_id, clock_id, ctx.market_account, instp.instance_account,
      ctx.market_signer_account, ctx.market_vault, ctx.bonfida_bnb,
      position.user_account_owner, position.user_account, trade_label_key,
      ctx.oracle_account] : List Pubkey) ++ instp.memory_pages
      ++ (discountMetas d).map AccountMeta.pubkey
      ++ (referrerMetas r).map AccountMeta.pubkey).Nodup)
    (hn7 : (([spl_token_id, clock_id, ctx.market_account, ctx.market_signer_account,
      ctx.market_vault, ctx.bonfida_bnb, inst.instance_account, po, opa,
      trade_label_key, ctx.oracle_account] : List Pubkey) ++ inst.memory_pages
      ++ (discountMetas d).map AccountMeta.pubkey
      ++ (referrerMetas r).map AccountMeta.pubkey).Nodup)
    (hn8 : (([spl_token_id, clock_id, ctx.market_account, instp.instance_account,
      ctx.market_signer_account, ctx.market_vault, ctx.bonfida_bnb,
      ctx.oracle_account, position.user_account_owner, position.user_account,
      trade_label_key] : List Pubkey) ++ instp.memory_pages
      ++ (discountMetas d).map AccountMeta.pubkey
      ++ (referrerMetas r).map AccountMeta.pubkey).Nodup)
    (hn9 : (([spl_token_id, ctx.market_account, inst.instance_account,
      ctx.market_vault, ctx.market_signer_account, tgt] : List Pubkey)
      ++ inst.memory_pages).Nodup)
    (hn10 : (([spl_token_id, ctx.market_account, inst.instance_account,
      ctx.market_signer_account, ctx.bonfida_bnb, ctx.market_vault,
      ctx.oracle_account, tgt, liquidation_label_key] : List Pubkey)
      ++ inst.memory_pages).Nodup)
    (hn11 : ([clock_id, ctx.market_account, ctx.oracle_account, funding_label_key] :
      List Pubkey).Nodup)
    (hn12 : (([ctx.market_account, inst.instance_account, opa,
      funding_extraction_label_key, ctx.oracle_account] : List Pubkey)
      ++ inst.memory_pages).Nodup)
    (hn13 : ([ctx.market_account, ctx.admin_account] : List Pubkey).Nodup)
    (hn14 : ([ua, uo, lt] : List Pubkey).Nodup)
    (hn15 : ([ctx.market_account, ctx.admin_account, inst.instance_account, np] :
      List Pubkey).Nodup)
    (hn16 : (([spl_token_id, clock_id, ctx.market_account, inst0.instance_account,
      ctx.market_signer_account, ctx.market_vault, ctx.bonfida_bnb, uo, ua,
      ctx.admin_account] : List Pubkey) ++ inst.memory_pages).Nodup)
    (hn17 : ([uo, ua, nuo] : List Pubkey).Nodup)
    (hn18 : ([suo, sua, duo, dua] : List Pubkey).Nodup) :
    allAccountsConsistent (create_market ctx s a cd qd) ∧
    allAccountsConsistent (update_oracle_account ctx pm pp ppr) ∧
    allAccountsConsistent (add_instance ctx ia mp) ∧
    allAccountsConsistent (add_budget ctx a so sta opa) ∧
    allAccountsConsistent (withdraw_budget ctx a ta opo opa) ∧
    allAccountsConsistent (open_position ctx position c l p m d r) ∧
    allAccountsConsistent (increase_position ctx c l idx pi po opa p m d r) ∧
    allAccountsConsistent (close_position ctx position c l pi p m d r) ∧
    allAccountsConsistent (collect_garbage ctx idx mi tgt) ∧
    allAccountsConsistent (crank_liquidation ctx idx tgt) ∧
    allAccountsConsistent (crank_funding ctx) ∧
    allAccountsConsistent (extract_funding ctx idx opa) ∧
    allAccountsConsistent (change_k ctx a) ∧
    allAccountsConsistent (close_account ctx ua uo lt) ∧
    allAccountsConsistent (add_page ctx idx np) ∧
    allAccountsConsistent (rebalance ctx ua uo idx c) ∧
    allAccountsConsistent (transfer_user_account ctx ua uo nuo) ∧
    allAccountsConsistent (transfer_position ctx pi sua suo dua duo) := by
  refine ⟨?_, ?_, ?_, ?_, ?_, ?_, ?_, ?_, ?_, ?_, ?_, ?_, ?_, ?_, ?_, ?_, ?_, ?_⟩ <;>
    intro ins hins <;> rw [Option.mem_def] at hins
  · rw [create_market_eq ctx s a cd qd hstr] at hins
    injection hins with hins
    subst hins
    exact flagsConsistent_of_nodup _
      (by simpa [AccountMeta.new, AccountMeta.new_readonly] using hn1)
  · rw [update_oracle_account_eq ctx pm pp ppr] at hins
    injection hins with hins
    subst hins
    exact flagsConsistent_of_nodup _
      (by simpa [AccountMeta.new, AccountMeta.new_readonly] using hn2)
  · rw [add_instance_eq ctx ia mp] at hins
    injection hins with hins
    subst hins
    exact flagsConsistent_of_nodup _
      (by simpa [AccountMeta.new, AccountMeta.new_readonly, pageMetas_map_pubkey]
        using hn3)
  · rw [add_budget_eq ctx a so sta opa] at hins
    injection hins with hins
    subst hins
    exact flagsConsistent_of_nodup _
      (by simpa [AccountMeta.new, AccountMeta.new_readonly] using hn4)
  · rw [withdraw_budget_eq ctx a ta opo opa] at hins
    injection hins with hins
    subst hins
    exact flagsConsistent_of_nodup _
      (by simpa [AccountMeta.new, AccountMeta.new_readonly] using hn5)
  · rw [open_position_eq ctx position c l p m d r instp hp] at hins
    injection hins with hins
    subst hins
    exact flagsConsistent_of_nodup _
      (by simpa [AccountMeta.new, AccountMeta.new_readonly, pageMetas_map_pubkey]
        using hn6)
  · rw [increase_position_eq ctx c l idx pi po opa p m d r inst h] at hins
    injection hins with hins
    subst hins
    exact flagsConsistent_of_nodup _
      (by simpa [AccountMeta.new, AccountMeta.new_readonly, pageMetas_map_pubkey]
        using hn7)
  · rw [close_position_eq ctx position c l pi p m d r instp hp] at hins
    injection hins with hins
    subst hins
    exact flagsConsistent_of_nodup _
      (by simpa [AccountMeta.new, AccountMeta.new_readonly, pageMetas_map_pubkey]
        using hn8)
  · rw [collect_garbage_eq ctx idx mi tgt inst h] at hins
    injection hins with hins
    subst hins
    exact flagsConsistent_of_nodup _
      (by simpa [AccountMeta.new, AccountMeta.new_readonly, pageMetas_map_pubkey]
        using hn9)
  · rw [crank_liquidation_eq ctx idx tgt inst h] at hins
    injection hins with hins
    subst hins
    exact flagsConsistent_of_nodup _
      (by simpa [AccountMeta.new, AccountMeta.new_readonly, pageMetas_map_pubkey]
        using hn10)
  · rw [crank_funding_eq ctx] at hins
    injection hins with hins
    subst hins
    exact flagsConsistent_of_nodup _
      (by simpa [AccountMeta.new, AccountMeta.new_readonly] using hn11)
  · rw [extract_funding_eq ctx idx opa inst h] at hins
    injection hins with hins
    subst hins
    exact flagsConsistent_of_nodup _
      (by simpa [AccountMeta.new, AccountMeta.new_readonly, pageMetas_map_pubkey]
        using hn12)
  · rw [change_k_eq ctx a] at hins
    injection hins with hins
    subst hins
    exact flagsConsistent_of_nodup _
      (by simpa [AccountMeta.new, AccountMeta.new_readonly] using hn13)
  · rw [close_account_eq ctx ua uo lt] at hins
    injection hins with hins
    subst hins
    exact flagsConsistent_of_nodup _
      (by simpa [AccountMeta.new, AccountMeta.new_readonly] using hn14)
  · rw [add_page_eq ctx idx np inst h] at hins
    injection hins with hins
    subst hins
    exact flagsConsistent_of_nodup _
      (by simpa [AccountMeta.new, AccountMeta.new_readonly] using hn15)
  · rw [rebalance_eq ctx ua uo idx c inst inst0 h h0] at hins
    injection hins with hins
    subst hins
    exact flagsConsistent_of_nodup _
      (by simpa [AccountMeta.new, AccountMeta.new_readonly, pageMetas_map_pubkey]
        using hn16)
  · rw [transfer_user_account_eq ctx ua uo nuo] at hins
    injection hins with hins
    subst hins
    exact flagsConsistent_of_nodup _
      (by simpa [AccountMeta.new, AccountMeta.new_readonly] using hn17)
  · rw [transfer_position_eq ctx pi sua suo dua duo] at hins
    injection hins with hins
    subst hins
    exact flagsConsistent_of_nodup _
      (by simpa [AccountMeta.new, AccountMeta.new_readonly] using hn18)

/-- A concrete market context with pairwise-distinct identities, used by
the C9 witness. -/
def ctxD : MarketContext :=
  ⟨300, 1, 301, 302, 303, 304, 305, 306, [⟨307, [308, 309]⟩, ⟨310, [311]⟩]⟩

/-- A concrete position in `ctxD`. -/
def posD : PositionInfo := ⟨312, 313, 0, .Long⟩

/-- Witness for the amended C9 at a context with pairwise-distinct
identities. -/
theorem flags_consistent_of_distinct_witness :
    allAccountsConsistent (create_market ctxD [65] 7 8 9) ∧
    allAccountsConsistent (update_oracle_account ctxD 320 321 322) ∧
    allAccountsConsistent (add_instance ctxD 323 [324]) ∧
    allAccountsConsistent (add_budget ctxD 7 325 326 327) ∧
    allAccountsConsistent (withdraw_budget ctxD 7 328 329 327) ∧
    allAccountsConsistent (open_position ctxD posD 1 2 3 4 (some ⟨330, 331⟩) (some 332)) ∧
    allAccountsConsistent
      (increase_position ctxD 1 2 1 5 333 327 3 4 (some ⟨330, 331⟩) (some 332)) ∧
    allAccountsConsistent (close_position ctxD posD 1 2 5 3 4 (some ⟨330, 331⟩) (some 332)) ∧
    allAccountsConsistent (collect_garbage ctxD 1 6 334) ∧
    allAccountsConsistent (crank_liquidation ctxD 1 334) ∧
    allAccountsConsistent (crank_funding ctxD) ∧
    allAccountsConsistent (extract_funding ctxD 1 327) ∧
    allAccountsConsistent (change_k ctxD 7) ∧
    allAccountsConsistent (close_account ctxD 335 336 337) ∧
    allAccountsConsistent (add_page ctxD 1 338) ∧
    allAccountsConsistent (rebalance ctxD 335 336 1 1) ∧
    allAccountsConsistent (transfer_user_account ctxD 335 336 339) ∧
    allAccountsConsistent (transfer_position ctxD 5 340 341 342 343) :=
  flags_consistent_of_distinct ctxD posD [65] 7 8 9 1 2 3 4 5 6 1
    320 321 322 323 325 326 327 328 329 333 334 335 336 337 338 339 340 341 342 343
    [324] (some ⟨330, 331⟩) (some 332) ⟨307, [308, 309]⟩ ⟨310, [311]⟩ ⟨307, [308, 309]⟩
    (by decide) rfl rfl rfl
    (by decide) (by decide) (by decide) (by decide) (by decide) (by decide)
    (by decide) (by decide) (by decide) (by decide) (by decide) (by decide)
    (by decide) (by decide) (by decide) (by decide) (by decide) (by decide)

/-! ### Rebalance instance mismatch (claim C10) -/

/-- Claim C10: for a context with two distinct instances and a valid
nonzero instance index, `rebalance` places the instance account of
`instances[0]` — not that of `instances[instance_index]` — at position 3 of
the account list, while the appended page references come from
`instances[instance_index]`. -/
theorem rebalance_instance_mismatch (ctx : MarketContext) (ua uo : Pubkey)
    (idx c : Nat) (instk inst0 : InstanceContext)
    (h : ctx.instances[idx]? = some instk) (h0 : ctx.instances[0]? = some inst0)
    (hidx : idx ≠ 0) (hacc : inst0.instance_account ≠ instk.instance_account) :
    (rebalance ctx ua uo idx c).map (fun i => i.accounts[3]?) =
      some (some (AccountMeta.new inst0.instance_account false)) ∧
    (rebalance ctx ua uo idx c).map (fun i => i.accounts[3]?) ≠
      some (some (AccountMeta.new instk.instance_account false)) ∧
    (rebalance ctx ua uo idx c).map (fun i => i.accounts.drop 10) =
      some (pageMetas instk.memory_pages) := by
  rw [rebalance_eq ctx ua uo idx c instk inst0 h h0]
  refine ⟨rfl, ?_, rfl⟩
  intro hE
  apply hacc
  have h4 : some (some (AccountMeta.new inst0.instance_account false)) =
      some (some (AccountMeta.new instk.instance_account false)) := hE
  exact congrArg AccountMeta.pubkey (Option.some.inj (Option.some.inj h4))

/-- Witness for C10 at a concrete two-instance context with index 1. -/
theorem rebalance_instance_mismatch_witness :
    ctxW.instances[(1 : Nat)]? = some ⟨211, [222]⟩ ∧
    ctxW.instances[(0 : Nat)]? = some ⟨210, [220, 221]⟩ ∧
    ((rebalance ctxW 13 14 1 1).map (fun i => i.accounts[3]?) =
        some (some (AccountMeta.new 210 false)) ∧
      (rebalance ctxW 13 14 1 1).map (fun i => i.accounts[3]?) ≠
        some (some (AccountMeta.new 211 false)) ∧
      (rebalance ctxW 13 14 1 1).map (fun i => i.accounts.drop 10) =
        some (pageMetas [222])) :=
  ⟨rfl, rfl,
   rebalance_instance_mismatch ctxW 13 14 1 1 ⟨211, [222]⟩ ⟨210, [220, 221]⟩
     rfl rfl (by decide) (by decide)⟩

end Audaces
